import Mathlib

/-!
Shallow embedding of the gigabot orchestration core (SoapMaker101/gigabot),
covering the message bus (`gigabot/bus/queue.py`), the tool registry
(`gigabot/agent/tools/registry.py`), the channel access check and forward
path (`gigabot/channels/base.py`), the outbound dispatcher
(`gigabot/channels/manager.py`), the subagent supervisor
(`gigabot/agent/subagent.py`) and the GigaChat provider adapter
(`gigabot/providers/gigachat_provider.py`).

Python exceptions are modelled with `Except String`: a function that may
raise returns `Except.error e` for an exception whose `str()` is `e`.
Python `dict[str, Any]` values are modelled by `Value`/`Params` below,
and external JSON (de)serialization (stdlib `json`, `json_repair`) is
either a concrete naive printer (`json_dumps`) or an explicit decoder
parameter, since those libraries are outside the repository.
-/

namespace Gigabot

/-- A JSON-like value, modelling Python `Any` as it appears in tool
arguments and message metadata (`dict[str, Any]`). -/
inductive Value where
  | vnull : Value
  | vbool (b : Bool) : Value
  | vint (n : Int) : Value
  | vstr (s : String) : Value
  | vlist (elems : List Value) : Value
  | vobj (fields : List (String × Value)) : Value

/-- Python `dict[str, Any]`, as passed to `ToolRegistry.execute`. -/
abbrev Params := List (String × Value)

mutual
/-- Naive model of `json.dumps` restricted to the values of `Value`.
`json.dumps` itself is the Python standard library (external to the
repository); only the fact that it produces a string matters to the core. -/
def json_dumps : Value → String
  | .vnull => "null"
  | .vbool true => "true"
  | .vbool false => "false"
  | .vint n => toString n
  | .vstr s => "\"" ++ s ++ "\""
  | .vlist es => "[" ++ String.intercalate ", " (json_dumps_list es) ++ "]"
  | .vobj fs => "\x7b" ++ String.intercalate ", " (json_dumps_fields fs) ++ "\x7d"

def json_dumps_list : List Value → List String
  | [] => []
  | v :: vs => json_dumps v :: json_dumps_list vs

def json_dumps_fields : List (String × Value) → List String
  | [] => []
  | (k, v) :: fs => ("\"" ++ k ++ "\": " ++ json_dumps v) :: json_dumps_fields fs
end

/-- Model of `json.dumps` applied to a `dict[str, Any]` (a `Params`). -/
def json_dumps_obj (ps : Params) : String :=
  json_dumps (Value.vobj ps)

/-- Splitting a character list at every occurrence of `sep`, keeping empty
segments — the semantics of Python `str.split(sep)` for a one-character
separator. -/
def split_on_sep (sep : Char) : List Char → List (List Char)
  | [] => [[]]
  | c :: rest =>
    match split_on_sep sep rest with
    | [] => [[]]
    | seg :: segs =>
      if c = sep then [] :: seg :: segs else (c :: seg) :: segs

/-- Model of Python `s.split(sep)` for a one-character separator (as in
`sender_str.split("|")`): every occurrence of the separator splits, empty
segments are kept, and `"".split(sep) == [""]`. -/
def py_split (s : String) (sep : Char) : List String :=
  (split_on_sep sep s.toList).map (fun cs => String.mk cs)

/-- Modelled from the spec: `InboundMessage` is declared in
`gigabot/bus/events.py`, which is not under `src/`; fields follow spec §3
and every construction site in `src/` (`channels/base.py`,
`agent/subagent.py`). -/
structure InboundMessage where
  channel : String
  sender_id : String
  chat_id : String
  content : String
  media : List String := []
  metadata : List (String × Value) := []

/-- Modelled from the spec: `OutboundMessage` is declared in
`gigabot/bus/events.py`, which is not under `src/`; fields follow spec §3. -/
structure OutboundMessage where
  channel : String
  chat_id : String
  content : String
  media : List String := []
  metadata : List (String × Value) := []

/-! ### Message bus (`gigabot/bus/queue.py`)

`MessageBus` holds two `asyncio.Queue`s. An `asyncio.Queue` is an
unbounded FIFO: `put` appends at the tail, `get` removes from the head
(suspending when empty — modelled by `Option`). The bus state is the pair
of queue contents. -/

structure MessageBus where
  inbound : List InboundMessage
  outbound : List OutboundMessage

namespace MessageBus

/-- `MessageBus.__init__`: both queues start empty. -/
def init : MessageBus := ⟨[], []⟩

/-- `publish_inbound`: `await self.inbound.put(msg)` — enqueue at the tail. -/
def publish_inbound (bus : MessageBus) (msg : InboundMessage) : MessageBus :=
  { bus with inbound := bus.inbound ++ [msg] }

/-- `consume_inbound`: `await self.inbound.get()` — dequeue from the head;
`none` models the suspended (empty-queue) state. -/
def consume_inbound (bus : MessageBus) : Option (InboundMessage × MessageBus) :=
  match bus.inbound with
  | [] => none
  | msg :: rest => some (msg, { bus with inbound := rest })

/-- `publish_outbound`: enqueue at the tail of the outbound queue. -/
def publish_outbound (bus : MessageBus) (msg : OutboundMessage) : MessageBus :=
  { bus with outbound := bus.outbound ++ [msg] }

/-- `consume_outbound`: dequeue from the head of the outbound queue. -/
def consume_outbound (bus : MessageBus) : Option (OutboundMessage × MessageBus) :=
  match bus.outbound with
  | [] => none
  | msg :: rest => some (msg, { bus with outbound := rest })

/-- `inbound_size` property: `self.inbound.qsize()`. -/
def inbound_size (bus : MessageBus) : Nat := bus.inbound.length

/-- `outbound_size` property: `self.outbound.qsize()`. -/
def outbound_size (bus : MessageBus) : Nat := bus.outbound.length

/-- A sequence of `publish_inbound` calls, in order. -/
def publish_inbound_all (bus : MessageBus) (msgs : List InboundMessage) : MessageBus :=
  msgs.foldl publish_inbound bus

/-- A sequence of `publish_outbound` calls, in order. -/
def publish_outbound_all (bus : MessageBus) (msgs : List OutboundMessage) : MessageBus :=
  msgs.foldl publish_outbound bus

/-- `n` successive `consume_inbound` calls: the messages returned, in
return order, and the bus left behind (stopping early if the queue
suspends). -/
def consume_inbound_seq : Nat → MessageBus → List InboundMessage × MessageBus
  | 0, bus => ([], bus)
  | n + 1, bus =>
    match bus.consume_inbound with
    | none => ([], bus)
    | some (m, bus2) =>
      let (ms, bus3) := consume_inbound_seq n bus2
      (m :: ms, bus3)

/-- `n` successive `consume_outbound` calls. -/
def consume_outbound_seq : Nat → MessageBus → List OutboundMessage × MessageBus
  | 0, bus => ([], bus)
  | n + 1, bus =>
    match bus.consume_outbound with
    | none => ([], bus)
    | some (m, bus2) =>
      let (ms, bus3) := consume_outbound_seq n bus2
      (m :: ms, bus3)

end MessageBus

/-! ### Tool contract and registry (`gigabot/agent/tools/registry.py`)

The abstract `Tool` base class lives in `gigabot/agent/tools/base.py`,
which is not under `src/`. -/

/-- Modelled from the spec: the capability contract of §4.2 —
`gigabot/agent/tools/base.py` is not under `src/`. A capability exposes a
unique `name`, a validator over named arguments, and an executor returning
a string. Both `validate_params` and `execute` are arbitrary Python code
and may raise (`Except.error`); `validate_params` normally returns the
list of validation error messages (empty = arguments conform to the
parameter schema). `description`/`to_schema` carry no control flow and are
collapsed to the definition string used by `get_definitions`. -/
structure Tool where
  name : String
  definition : String
  validate_params : Params → Except String (List String)
  execute : Params → Except String String

/-- `ToolRegistry`: `self._tools: dict[str, Tool]` — an insertion-ordered
mapping from name to tool, modelled as an association list. -/
structure ToolRegistry where
  tools : List (String × Tool)

namespace ToolRegistry

/-- `ToolRegistry.__init__` -/
def init : ToolRegistry := ⟨[]⟩

/-- `dict.get`: first (and only, under the dict invariant) binding wins. -/
def get (reg : ToolRegistry) (name : String) : Option Tool :=
  (reg.tools.find? (fun p => p.1 = name)).map (fun p => p.2)

/-- `register`: `self._tools[tool.name] = tool` — Python dict assignment
replaces in place when the key exists (keeping its position), otherwise
appends at the end. -/
def register (reg : ToolRegistry) (tool : Tool) : ToolRegistry :=
  if reg.tools.any (fun p => p.1 = tool.name) then
    ⟨reg.tools.map (fun p => if p.1 = tool.name then (p.1, tool) else p)⟩
  else
    ⟨reg.tools ++ [(tool.name, tool)]⟩

/-- `unregister`: `self._tools.pop(name, None)`. -/
def unregister (reg : ToolRegistry) (name : String) : ToolRegistry :=
  ⟨reg.tools.filter (fun p => p.1 ≠ name)⟩

/-- `has` / `__contains__`: `name in self._tools`. -/
def has (reg : ToolRegistry) (name : String) : Bool :=
  reg.tools.any (fun p => p.1 = name)

/-- `get_definitions`: `[tool.to_schema() for tool in self._tools.values()]`. -/
def get_definitions (reg : ToolRegistry) : List String :=
  reg.tools.map (fun p => p.2.definition)

/-- `ToolRegistry.execute`:
```
tool = self._tools.get(name)
if not tool:
    return f"Error: Tool '{name}' not found"
try:
    errors = tool.validate_params(params)
    if errors:
        return f"Error: Invalid parameters for tool '{name}': " + "; ".join(errors)
    return await tool.execute(**params)
except Exception as e:
    return f"Error executing {name}: {str(e)}"
```
The result is always a plain string: exceptions from the validator or the
executor are caught by the `try` and stringified. -/
def execute (reg : ToolRegistry) (name : String) (params : Params) : String :=
  match reg.get name with
  | none => "Error: Tool '" ++ name ++ "' not found"
  | some tool =>
    match tool.validate_params params with
    | .error e => "Error executing " ++ name ++ ": " ++ e
    | .ok errors =>
      if ¬ errors.isEmpty then
        "Error: Invalid parameters for tool '" ++ name ++ "': " ++
          String.intercalate "; " errors
      else
        match tool.execute params with
        | .error e => "Error executing " ++ name ++ ": " ++ e
        | .ok result => result

/-- Instrumentation of `execute`: how many times the branch
`await tool.execute(**params)` of `ToolRegistry.execute` invokes the
capability's executor, following the exact same control flow as `execute`
(an invocation counts even when the executor raises). -/
def execute_calls (reg : ToolRegistry) (name : String) (params : Params) : Nat :=
  match reg.get name with
  | none => 0
  | some tool =>
    match tool.validate_params params with
    | .error _ => 0
    | .ok errors =>
      if ¬ errors.isEmpty then 0
      else 1

end ToolRegistry

/-! ### Channel access check and forward path (`gigabot/channels/base.py`) -/

/-- The slice of a channel's config that `BaseChannel.is_allowed` reads:
`getattr(self.config, "allow_from", [])`. -/
structure ChannelConfig where
  allow_from : List String

namespace BaseChannel

/-- `BaseChannel.is_allowed`:
```
allow_list = getattr(self.config, "allow_from", [])
if not allow_list:
    return True
sender_str = str(sender_id)
if sender_str in allow_list:
    return True
if "|" in sender_str:
    for part in sender_str.split("|"):
        if part and part in allow_list:
            return True
return False
```
-/
def is_allowed (config : ChannelConfig) (sender_id : String) : Bool :=
  let allow_list := config.allow_from
  if allow_list.isEmpty then
    true
  else
    let sender_str := sender_id
    if allow_list.contains sender_str then
      true
    else if sender_str.toList.contains '|' then
      (py_split sender_str '|').any
        (fun part => !part.isEmpty && allow_list.contains part)
    else
      false

/-- `BaseChannel._handle_message`: a denied sender is logged and dropped
(the bus is untouched, nothing is sent back); an allowed sender's event is
wrapped into an `InboundMessage` and published to the inbound queue. -/
def handle_message (config : ChannelConfig) (name : String) (bus : MessageBus)
    (sender_id chat_id content : String) (media : Option (List String))
    (metadata : Option (List (String × Value))) : MessageBus :=
  if ¬ is_allowed config sender_id then
    bus
  else
    bus.publish_inbound
      { channel := name
        sender_id := sender_id
        chat_id := chat_id
        content := content
        media := media.getD []
        metadata := metadata.getD [] }

end BaseChannel

/-! ### Outbound dispatcher (`gigabot/channels/manager.py`) -/

/-- A channel adapter as the dispatcher sees it: `send` is arbitrary
platform code and may raise (`Except.error e` models a raised exception
whose text is `e`). -/
structure Channel where
  send : OutboundMessage → Except String Unit

/-- What one iteration of `ChannelManager._dispatch_outbound` did with the
outbound message it consumed. `delivered`/`send_error` correspond to the
inner `try`: a raised `send` is logged (`send_error`), never propagated.
`unknown_channel` is the `else` branch: logged, message dropped. -/
inductive DispatchOutcome where
  | delivered : DispatchOutcome
  | send_error (e : String) : DispatchOutcome
  | unknown_channel : DispatchOutcome
deriving DecidableEq

/-- The body of `ChannelManager._dispatch_outbound` for one consumed
message: look the adapter up by the message's channel name
(`self.channels.get(msg.channel)`), call `send` inside a `try` that logs
exceptions, or log-and-drop when no adapter is registered. The function is
total: no outcome re-raises into the loop. -/
def dispatch_one (channels : List (String × Channel)) (msg : OutboundMessage) :
    DispatchOutcome :=
  match (channels.find? (fun p => p.1 = msg.channel)).map (fun p => p.2) with
  | none => .unknown_channel
  | some ch =>
    match ch.send msg with
    | .error e => .send_error e
    | .ok _ => .delivered

/-- The dispatcher loop run over a queue of outbound messages: each
iteration consumes one message, handles it with `dispatch_one`, and
continues with the next — `while True` with `continue` after every
outcome (timeouts consume nothing and are not represented). -/
def dispatch_loop (channels : List (String × Channel)) :
    List OutboundMessage → List DispatchOutcome
  | [] => []
  | msg :: rest => dispatch_one channels msg :: dispatch_loop channels rest

/-! ### Provider interface (`gigabot/providers/base.py`, not under `src/`) -/

/-- Modelled from the spec: `ToolCallRequest` is declared in
`gigabot/providers/base.py`, which is not under `src/`; fields follow spec
§3 (`CapabilityCallRequest`) and the construction site in
`gigabot/providers/gigachat_provider.py`. -/
structure ToolCallRequest where
  id : String
  name : String
  arguments : Params

/-- Modelled from the spec: `LLMResponse` is declared in
`gigabot/providers/base.py`, which is not under `src/`; fields follow spec
§6 and the construction sites in `gigabot/providers/gigachat_provider.py`. -/
structure LLMResponse where
  content : Option String
  tool_calls : List ToolCallRequest := []
  finish_reason : String := "stop"
  usage : List (String × Nat) := []
  functions_state_id : Option String := none

/-- Modelled from the spec: `LLMResponse.has_tool_calls` (declared in the
missing `gigabot/providers/base.py`) — whether the response carries any
capability-call request, i.e. its ordered `tool_calls` sequence is
non-empty. -/
def LLMResponse.has_tool_calls (r : LLMResponse) : Bool :=
  !r.tool_calls.isEmpty

/-! ### Conversation entries

The reasoning loop keeps its conversation as a list of OpenAI-format
dicts (`messages` in `SubagentManager._run_subagent`); `Entry` models the
dict shapes that loop builds and that
`_convert_messages_to_gigachat` reads. -/

/-- The argument payload of a tool-call dict / SDK function call: Python
stores either an already-decoded `dict` or a JSON string there. -/
inductive PyArgs where
  | pdict (d : Params) : PyArgs
  | pstr (s : String) : PyArgs

/-- One element of an assistant dict's `"tool_calls"` list, as built in
`SubagentManager._run_subagent` (`{"id": ..., "type": "function",
"function": {"name": ..., "arguments": json.dumps(...)}}`); the constant
`"type": "function"` field is omitted. -/
structure ToolCallDict where
  id : String
  name : String
  arguments : PyArgs

/-- One element of a list-shaped user content (`{"type": "text", ...}` or
any other part shape, which the converter skips). -/
inductive ContentPart where
  | text (s : String) : ContentPart
  | other : ContentPart

/-- A conversation entry (an OpenAI-format message dict). `content` fields
hold the string after Python's `or ""` normalization of `None`. -/
inductive Entry where
  | system (content : String) : Entry
  | user (content : String) : Entry
  | userParts (parts : List ContentPart) : Entry
  | assistant (content : String) (tool_calls : List ToolCallDict)
      (functions_state_id : Option String) : Entry
  | tool (tool_call_id : String) (name : String) (content : String) : Entry

/-- A provider's `chat` as the reasoning loop calls it: the conversation in,
an `LLMResponse` out, or a raised exception (`Except.error`). The fixed
per-run arguments (`tools=...get_definitions()`, `model`, `temperature`,
`max_tokens`) are absorbed into the function. -/
abbrev Provider := List Entry → Except String LLMResponse

/-! ### Subagent supervisor (`gigabot/agent/subagent.py`) -/

/-- A task's recorded origin: the `origin` dict built in
`SubagentManager.spawn` (`{"channel": origin_channel, "chat_id":
origin_chat_id}`). -/
structure Origin where
  channel : String
  chat_id : String

/-- The hardcoded round limit of `SubagentManager._run_subagent`:
`max_iterations = 15`. -/
def subagent_max_iterations : Nat := 15

/-- The fallback reply synthesized when the loop finishes without a final
response (`if final_result is None: ...`). -/
def subagent_fallback_reply : String :=
  "Task completed but no final response was generated."

/-- The body of one tool-call round of `SubagentManager._run_subagent`
(the `if response.has_tool_calls:` branch): append one assistant entry
recording every request of the response (ids, names, `json.dumps`-serialized
arguments), then, for each request in response order, execute it through
the registry and append one tool entry carrying the request's id. -/
def round_step (tools : ToolRegistry) (messages : List Entry)
    (response : LLMResponse) : List Entry :=
  let tool_call_dicts := response.tool_calls.map (fun tc =>
    ToolCallDict.mk tc.id tc.name (PyArgs.pstr (json_dumps_obj tc.arguments)))
  let messages1 := messages ++
    [Entry.assistant ((response.content).getD "") tool_call_dicts none]
  messages1 ++ response.tool_calls.map (fun tc =>
    Entry.tool tc.id tc.name (tools.execute tc.name tc.arguments))

/-- The `while iteration < max_iterations` loop of
`SubagentManager._run_subagent`, with `fuel = max_iterations - iteration`.
Returns `final_result` (still `none` on round exhaustion or when the final
response had no content), the conversation, and the number of provider
rounds performed (provider `chat` invocations); a provider exception
propagates (`Except.error`) to the caller's `try`. -/
def run_loop (provider : Provider) (tools : ToolRegistry) :
    Nat → List Entry → Except String (Option String × List Entry × Nat)
  | 0, messages => .ok (none, messages, 0)
  | fuel + 1, messages =>
    match provider messages with
    | .error e => .error e
    | .ok response =>
      if response.has_tool_calls then
        match run_loop provider tools fuel (round_step tools messages response) with
        | .error e => .error e
        | .ok (res, msgs, rounds) => .ok (res, msgs, rounds + 1)
      else
        .ok (response.content, messages, 1)

/-- `SubagentManager._announce_result`: the synthetic inbound announcement
published to the bus, addressed (via `chat_id`) to the task's recorded
origin. -/
def announce_result (label task result : String) (origin : Origin)
    (status : String) : InboundMessage :=
  let status_text := if status = "ok" then "completed successfully" else "failed"
  let announce_content :=
    "[Subagent '" ++ label ++ "' " ++ status_text ++ "]\n\nTask: " ++ task ++
      "\n\nResult:\n" ++ result ++
      "\n\nSummarize this naturally for the user. Keep it brief (1-2 sentences). " ++
      "Do not mention technical details like \"subagent\" or task IDs."
  { channel := "system"
    sender_id := "subagent"
    chat_id := origin.channel ++ ":" ++ origin.chat_id
    content := announce_content }

/-- `SubagentManager._run_subagent` without its bus effect: the whole body
runs inside `try: ... except Exception as e:`; any exception (here: a
provider exception surfacing from `run_loop`) reaches the `except`, which
announces with status `error` and result `"Error: " + str(e)`; otherwise
the final (or fallback) result is announced with status `ok`. The
function is total — it always produces exactly one announcement. The
registry construction and the focused system prompt
(`_build_subagent_prompt`, which formats the current time) are taken as
the `tools`/`system_prompt` arguments; `max_iterations` is a parameter so
the round limit can be quantified (the source fixes it to
`subagent_max_iterations`). -/
def run_subagent (provider : Provider) (tools : ToolRegistry)
    (task system_prompt : String) (max_iterations : Nat)
    (label : String) (origin : Origin) : InboundMessage :=
  let messages := [Entry.system system_prompt, Entry.user task]
  match run_loop provider tools max_iterations messages with
  | .error e => announce_result label task ("Error: " ++ e) origin "error"
  | .ok (final_result, _, _) =>
    announce_result label task (final_result.getD subagent_fallback_reply) origin "ok"

/-- `SubagentManager._run_subagent`'s effect on the bus: its only
`publish_inbound` is the single call inside `_announce_result`, so the
run publishes exactly one inbound message. -/
def run_subagent_bus (provider : Provider) (tools : ToolRegistry)
    (task system_prompt : String) (max_iterations : Nat)
    (label : String) (origin : Origin) (bus : MessageBus) : MessageBus :=
  bus.publish_inbound
    (run_subagent provider tools task system_prompt max_iterations label origin)

/-- `SubagentManager.spawn`'s label defaulting:
`label or task[:30] + ("..." if len(task) > 30 else "")` (an empty
explicit label is falsy and also falls back). -/
def display_label (task : String) (label : Option String) : String :=
  let dflt := task.take 30 ++ (if task.length > 30 then "..." else "")
  match label with
  | some l => if l.isEmpty then dflt else l
  | none => dflt

/-- `SubagentManager.spawn`'s return value — fixed at scheduling time,
independent of anything the background unit later does. -/
def spawn_result (task_id : String) (dl : String) : String :=
  "Subagent [" ++ dl ++ "] started (id: " ++ task_id ++
    "). I'll notify you when it completes."

/-- `spawn`'s bookkeeping step: `self._running_tasks[task_id] = bg_task` —
`task_id` is a fresh uuid, so the dict assignment adds a new key (modelled
as the list of running task ids). -/
def spawn_running (running : List String) (task_id : String) : List String :=
  running ++ [task_id]

/-- The done callback registered by `spawn`:
`self._running_tasks.pop(task_id, None)` — runs when the background unit
finishes, whatever its outcome. -/
def reap (running : List String) (task_id : String) : List String :=
  running.filter (fun t => t ≠ task_id)

/-! ### GigaChat provider (`gigabot/providers/gigachat_provider.py`)

The `gigachat` SDK response/message models are external; only the fields
the provider adapter reads/writes are modelled. `json_repair.loads` and
`json.loads` are external libraries, passed as decoder parameters. -/

/-- The SDK's `FunctionCall` as found on a response message:
`fc.arguments` may be a decoded dict or a JSON string. -/
structure RawFunctionCall where
  name : String
  arguments : PyArgs

/-- The SDK's response message: the fields `_parse_response` reads. -/
structure RawMessage where
  content : Option String
  function_call : Option RawFunctionCall := none
  functions_state_id : Option String := none

/-- One element of `response.choices`. -/
structure RawChoice where
  message : RawMessage
  finish_reason : Option String := none

/-- `response.usage`, when present. -/
structure RawUsage where
  prompt_tokens : Nat
  completion_tokens : Nat
  total_tokens : Nat

/-- The SDK's chat response as `_parse_response` reads it. -/
structure RawResponse where
  choices : List RawChoice
  usage : Option RawUsage := none

namespace GigaChatProvider

/-- `GigaChatProvider._parse_response`. `choices[0]` on an empty list
raises `IndexError` (`Except.error`, caught by `chat`'s `try`);
`str(uuid.uuid4())[:8]` is the `fresh_id` parameter; at most one
`ToolCallRequest` is ever appended — only when `message.function_call`
is set. -/
def parse_response (json_repair_loads : String → Except String Params)
    (fresh_id : String) (response : RawResponse) : Except String LLMResponse :=
  match response.choices with
  | [] => .error "list index out of range"
  | choice :: _ =>
    let message := choice.message
    let tool_calls : List ToolCallRequest :=
      match message.function_call with
      | none => []
      | some fc =>
        let args : Params :=
          match fc.arguments with
          | .pdict d => d
          | .pstr s =>
            match json_repair_loads s with
            | .ok d => d
            | .error _ => []
        [{ id := fresh_id, name := fc.name, arguments := args }]
    let usage : List (String × Nat) :=
      match response.usage with
      | some u =>
        [("prompt_tokens", u.prompt_tokens),
          ("completion_tokens", u.completion_tokens),
          ("total_tokens", u.total_tokens)]
      | none => []
    let content0 := message.content
    let content :=
      if !tool_calls.isEmpty && (content0.getD "").isEmpty then some "" else content0
    let finish_reason :=
      match choice.finish_reason with
      | some s => if s.isEmpty then "stop" else s
      | none => "stop"
    .ok
      { content := content
        tool_calls := tool_calls
        finish_reason := finish_reason
        usage := usage
        functions_state_id := message.functions_state_id }

/-- `GigaChatProvider.chat`: the request build, client call and response
parsing run inside one `try`; any exception `e` (network/auth/rate-limit —
the `client_result` argument, or the parser's `IndexError`) is caught and
converted into an `LLMResponse` whose content is the error text, with
`finish_reason="error"` and no tool calls. `chat` itself never raises. -/
def chat (json_repair_loads : String → Except String Params) (fresh_id : String)
    (client_result : Except String RawResponse) : LLMResponse :=
  match client_result with
  | .error e =>
    { content := some ("Error calling GigaChat: " ++ e), finish_reason := "error" }
  | .ok response =>
    match parse_response json_repair_loads fresh_id response with
    | .error e =>
      { content := some ("Error calling GigaChat: " ++ e), finish_reason := "error" }
    | .ok r => r

end GigaChatProvider

/-- The SDK's `MessagesRole`. -/
inductive MessagesRole where
  | system : MessagesRole
  | user : MessagesRole
  | assistant : MessagesRole
  | function : MessagesRole
deriving DecidableEq

/-- The SDK's `FunctionCall` as attached to an outgoing assistant message. -/
structure FunctionCall where
  name : String
  arguments : Value

/-- The SDK's `Messages` model: the fields
`_convert_messages_to_gigachat` writes. -/
structure Messages where
  role : MessagesRole
  content : String
  function_call : Option FunctionCall := none
  functions_state_id : Option String := none

/-- The per-message body of `_convert_messages_to_gigachat` (each branch of
the `for` loop appends exactly one `Messages` for the four roles `Entry`
covers). For an assistant dict with tool calls, only `msg["tool_calls"][0]`
is read — later tool calls are dropped. -/
def convert_message (json_loads : String → Except String Value) :
    Entry → Messages
  | .system content => { role := .system, content := content }
  | .user content => { role := .user, content := content }
  | .userParts parts =>
    let text_parts := parts.filterMap (fun p =>
      match p with
      | .text s => some s
      | .other => none)
    { role := .user, content := String.intercalate "\n" text_parts }
  | .assistant content tool_calls fsid =>
    let function_call : Option FunctionCall :=
      match tool_calls with
      | [] => none
      | tc :: _ =>
        let args : Value :=
          match tc.arguments with
          | .pdict d => Value.vobj d
          | .pstr s =>
            match json_loads s with
            | .ok v => v
            | .error _ => Value.vobj []
        some { name := tc.name, arguments := args }
    { role := .assistant
      content := content
      function_call := function_call
      functions_state_id :=
        match fsid with
        | some s => if s.isEmpty then none else some s
        | none => none }
  | .tool _ _ content =>
    let json_content :=
      match json_loads content with
      | .ok _ => content
      | .error _ => json_dumps (Value.vobj [("result", Value.vstr content)])
    { role := .function, content := json_content }

/-- `_convert_messages_to_gigachat`: one `Messages` per recognized entry,
in order. -/
def convert_messages_to_gigachat (json_loads : String → Except String Value)
    (messages : List Entry) : List Messages :=
  messages.map (convert_message json_loads)

/-! ### Conversation invariants (spec §3 / §5)

`no_orphans` formalizes "a `tool-result` entry always corresponds to a
previously emitted tool-call request within the same conversation": read
the conversation left to right, accumulating the request ids recorded in
assistant entries; every tool entry's `tool_call_id` must already have
been seen. -/

/-- Whether, given the tool-call ids `seen` recorded so far, the remaining
conversation contains no orphan tool-result entry. -/
def no_orphans_from (seen : List String) : List Entry → Bool
  | [] => true
  | .tool cid _ _ :: rest => seen.contains cid && no_orphans_from seen rest
  | .assistant _ tcs _ :: rest =>
    no_orphans_from (seen ++ tcs.map (fun t => t.id)) rest
  | .system _ :: rest => no_orphans_from seen rest
  | .user _ :: rest => no_orphans_from seen rest
  | .userParts _ :: rest => no_orphans_from seen rest

/-- No orphan tool results in a whole conversation. -/
def no_orphans (msgs : List Entry) : Bool :=
  no_orphans_from [] msgs

/-- All tool-call request ids recorded in the assistant entries of a
conversation, in order. -/
def assistant_ids : List Entry → List String
  | [] => []
  | .assistant _ tcs _ :: rest => tcs.map (fun t => t.id) ++ assistant_ids rest
  | _ :: rest => assistant_ids rest

/-- The `tool_call_id` of a tool entry, if the entry is one. -/
def tool_entry_id : Entry → Option String
  | .tool cid _ _ => some cid
  | _ => none

/-! ## Theorems -/

theorem publish_inbound_all_eq (ms inq : List InboundMessage)
    (outq : List OutboundMessage) :
    MessageBus.publish_inbound_all ⟨inq, outq⟩ ms = ⟨inq ++ ms, outq⟩ := by
  induction ms generalizing inq with
  | nil => simp [MessageBus.publish_inbound_all]
  | cons m rest ih =>
    show MessageBus.publish_inbound_all (MessageBus.publish_inbound ⟨inq, outq⟩ m) rest = _
    rw [show MessageBus.publish_inbound ⟨inq, outq⟩ m = (⟨inq ++ [m], outq⟩ : MessageBus) from rfl]
    rw [ih (inq ++ [m])]
    simp

theorem publish_outbound_all_eq (os : List OutboundMessage)
    (inq : List InboundMessage) (outq : List OutboundMessage) :
    MessageBus.publish_outbound_all ⟨inq, outq⟩ os = ⟨inq, outq ++ os⟩ := by
  induction os generalizing outq with
  | nil => simp [MessageBus.publish_outbound_all]
  | cons m rest ih =>
    show MessageBus.publish_outbound_all (MessageBus.publish_outbound ⟨inq, outq⟩ m) rest = _
    rw [show MessageBus.publish_outbound ⟨inq, outq⟩ m = (⟨inq, outq ++ [m]⟩ : MessageBus) from rfl]
    rw [ih (outq ++ [m])]
    simp

theorem consume_inbound_seq_all (q : List InboundMessage)
    (outq : List OutboundMessage) :
    MessageBus.consume_inbound_seq q.length ⟨q, outq⟩ = (q, ⟨[], outq⟩) := by
  induction q with
  | nil => rfl
  | cons m rest ih =>
    simp [MessageBus.consume_inbound_seq, MessageBus.consume_inbound, ih]

theorem consume_outbound_seq_all (q : List OutboundMessage)
    (inq : List InboundMessage) :
    MessageBus.consume_outbound_seq q.length ⟨inq, q⟩ = (q, ⟨inq, []⟩) := by
  induction q with
  | nil => rfl
  | cons m rest ih =>
    simp [MessageBus.consume_outbound_seq, MessageBus.consume_outbound, ih]

/-- C6: for every sequence of `publish_inbound` calls the inbound queue gains
exactly those messages at its tail (publish order) with the outbound queue — in
any state — untouched; successive `consume_inbound` calls then return exactly
the queued messages, unchanged, in publish order (FIFO), again leaving the
outbound queue untouched; and the outbound queue obeys the symmetric laws
independently of the inbound queue's state. -/
theorem claim_C6 (inq ms : List InboundMessage) (outq os : List OutboundMessage) :
    MessageBus.publish_inbound_all ⟨inq, outq⟩ ms = ⟨inq ++ ms, outq⟩ ∧
    MessageBus.consume_inbound_seq (inq ++ ms).length ⟨inq ++ ms, outq⟩ =
      (inq ++ ms, ⟨[], outq⟩) ∧
    MessageBus.publish_outbound_all ⟨inq, outq⟩ os = ⟨inq, outq ++ os⟩ ∧
    MessageBus.consume_outbound_seq (outq ++ os).length ⟨inq, outq ++ os⟩ =
      (outq ++ os, ⟨inq, []⟩) :=
  ⟨publish_inbound_all_eq ms inq outq,
   consume_inbound_seq_all (inq ++ ms) outq,
   publish_outbound_all_eq os inq outq,
   consume_outbound_seq_all (outq ++ os) inq⟩

/-- A concrete capability for witnesses: accepts only an empty argument
mapping and returns `"42"`. -/
def demo_tool : Tool :=
  { name := "echo"
    definition := "echo"
    validate_params := fun ps =>
      .ok (if ps.isEmpty then [] else ["unexpected parameter"])
    execute := fun _ => .ok "42" }

/-- A concrete capability whose validator accepts everything and whose
executor always raises. -/
def demo_raising_tool : Tool :=
  { name := "bomb"
    definition := "bomb"
    validate_params := fun _ => .ok []
    execute := fun _ => .error "boom" }

/-- A registry holding `demo_tool` and `demo_raising_tool`. -/
def demo_registry : ToolRegistry :=
  (ToolRegistry.init.register demo_tool).register demo_raising_tool

/-- C3: for a registered capability, arguments that conform to its parameter
schema (the validator reports no errors) make `ToolRegistry.execute` invoke the
capability's executor exactly once, while non-conforming arguments (the
validator reports at least one error) make it invoke the executor zero times
and return the textual validation-error message instead. -/
theorem claim_C3 (reg : ToolRegistry) (name : String) (tool : Tool)
    (params : Params) (hget : reg.get name = some tool) :
    (tool.validate_params params = .ok [] →
      reg.execute_calls name params = 1) ∧
    (∀ errs, tool.validate_params params = .ok errs → errs ≠ [] →
      reg.execute_calls name params = 0 ∧
      reg.execute name params =
        "Error: Invalid parameters for tool '" ++ name ++ "': " ++
          String.intercalate "; " errs) := by
  constructor
  · intro hv
    simp [ToolRegistry.execute_calls, hget, hv]
  · intro errs hv hne
    refine ⟨?_, ?_⟩
    · simp [ToolRegistry.execute_calls, hget, hv, List.isEmpty_iff, hne]
    · simp [ToolRegistry.execute, hget, hv, List.isEmpty_iff, hne]

theorem claim_C3_witness :
    demo_registry.execute_calls "echo" [] = 1 ∧
    demo_registry.execute_calls "echo" [("x", Value.vnull)] = 0 :=
  ⟨(claim_C3 demo_registry "echo" demo_tool [] rfl).1 rfl,
   ((claim_C3 demo_registry "echo" demo_tool [("x", Value.vnull)] rfl).2
      ["unexpected parameter"] rfl (by simp)).1⟩

/-- C4: `ToolRegistry.execute` returns the structured "tool not found" error
string for every unregistered capability name, and never lets an exception
escape — an exception raised by the capability's validator or executor is
caught and converted into an error string. -/
theorem claim_C4 (reg : ToolRegistry) (name : String) (params : Params) :
    (reg.get name = none →
      reg.execute name params = "Error: Tool '" ++ name ++ "' not found") ∧
    (∀ tool e, reg.get name = some tool →
      tool.validate_params params = .error e →
      reg.execute name params = "Error executing " ++ name ++ ": " ++ e) ∧
    (∀ tool e, reg.get name = some tool →
      tool.validate_params params = .ok [] →
      tool.execute params = .error e →
      reg.execute name params = "Error executing " ++ name ++ ": " ++ e) := by
  refine ⟨?_, ?_, ?_⟩
  · intro hget
    simp [ToolRegistry.execute, hget]
  · intro tool e hget hv
    simp [ToolRegistry.execute, hget, hv]
  · intro tool e hget hv hx
    simp [ToolRegistry.execute, hget, hv, hx]

theorem claim_C4_witness :
    demo_registry.execute "nope" [] = "Error: Tool 'nope' not found" ∧
    demo_registry.execute "bomb" [] = "Error executing bomb: boom" :=
  ⟨(claim_C4 demo_registry "nope" []).1 rfl,
   (claim_C4 demo_registry "bomb" []).2.2 demo_raising_tool "boom" rfl rfl rfl⟩

/-- A concrete channel config with a non-empty allow-list, for witnesses. -/
def demo_config : ChannelConfig := ⟨["alice"]⟩

/-- C5: an empty allow-list admits every sender; with a non-empty allow-list, a
sender that is not listed — nor has any non-empty `"|"`-separated sub-identifier
listed — fails `is_allowed`, and `_handle_message` drops its event silently:
the bus is left exactly as it was, so no inbound message is ever produced and
nothing is sent back. -/
theorem claim_C5 (config : ChannelConfig) (chname : String) (bus : MessageBus)
    (sender_id chat_id content : String) (media : Option (List String))
    (metadata : Option (List (String × Value))) :
    (config.allow_from = [] →
      BaseChannel.is_allowed config sender_id = true) ∧
    (config.allow_from ≠ [] →
      config.allow_from.contains sender_id = false →
      (∀ part ∈ py_split sender_id '|',
        part = "" ∨ config.allow_from.contains part = false) →
      BaseChannel.is_allowed config sender_id = false ∧
      BaseChannel.handle_message config chname bus sender_id chat_id content
        media metadata = bus) := by
  constructor
  · intro h
    simp [BaseChannel.is_allowed, h]
  · intro hne hcont hparts
    have hemp : config.allow_from.isEmpty = false := by
      cases h : config.allow_from with
      | nil => exact absurd h hne
      | cons a l => simp
    have hallow : BaseChannel.is_allowed config sender_id = false := by
      unfold BaseChannel.is_allowed
      simp only [hemp, Bool.false_eq_true, if_false, hcont]
      split
      · rw [List.any_eq_false]
        intro part hp
        rcases hparts part hp with h1 | h2
        · subst h1
          have he : ("" : String).isEmpty = true := by decide
          simp [he]
        · simp only [Bool.not_eq_true]
          simp at h2 ⊢
          intro _
          exact h2
      · rfl
    refine ⟨hallow, ?_⟩
    simp [BaseChannel.handle_message, hallow]

theorem claim_C5_witness :
    BaseChannel.is_allowed ⟨[]⟩ "anyone" = true ∧
    BaseChannel.handle_message demo_config "telegram" MessageBus.init "bob|eve"
      "1" "hi" none none = MessageBus.init :=
  ⟨(claim_C5 ⟨[]⟩ "telegram" MessageBus.init "anyone" "1" "hi" none none).1 rfl,
   ((claim_C5 demo_config "telegram" MessageBus.init "bob|eve" "1" "hi" none
      none).2 (by simp [demo_config]) (by decide) (by decide)).2⟩

/-- A concrete adapter whose `send` always raises, for witnesses. -/
def demo_channel : Channel := ⟨fun _ => .error "boom"⟩

/-- A concrete adapter set with one registered channel. -/
def demo_channels : List (String × Channel) := [("telegram", demo_channel)]

/-- An outbound message naming an unregistered channel. -/
def demo_out1 : OutboundMessage :=
  { channel := "missing", chat_id := "1", content := "hi" }

/-- An outbound message naming the registered (always-raising) channel. -/
def demo_out2 : OutboundMessage :=
  { channel := "telegram", chat_id := "1", content := "hi" }

/-- C8: for every outbound message the dispatcher consumes, an unresolvable
channel name yields the logged `unknown_channel` outcome (the message is
dropped), a raising `send` yields the logged `send_error` outcome (the
exception is not propagated), and in every case the dispatcher loop goes on to
the next outbound message — it assigns exactly one outcome to every message of
the queue instead of stalling or terminating. -/
theorem claim_C8 (channels : List (String × Channel)) (msg : OutboundMessage)
    (q : List OutboundMessage) :
    ((channels.find? (fun p => p.1 = msg.channel)).map (fun p => p.2) = none →
      dispatch_one channels msg = .unknown_channel) ∧
    (∀ ch e,
      (channels.find? (fun p => p.1 = msg.channel)).map (fun p => p.2) = some ch →
      ch.send msg = .error e →
      dispatch_one channels msg = .send_error e) ∧
    dispatch_loop channels (msg :: q) =
      dispatch_one channels msg :: dispatch_loop channels q ∧
    (dispatch_loop channels q).length = q.length := by
  refine ⟨?_, ?_, rfl, ?_⟩
  · intro h
    simp [dispatch_one, h]
  · intro ch e h hs
    simp [dispatch_one, h, hs]
  · induction q with
    | nil => rfl
    | cons m rest ih => simp [dispatch_loop, ih]

theorem claim_C8_witness :
    dispatch_one demo_channels demo_out1 = .unknown_channel ∧
    dispatch_one demo_channels demo_out2 = .send_error "boom" ∧
    (dispatch_loop demo_channels [demo_out1, demo_out2]).length = 2 :=
  ⟨(claim_C8 demo_channels demo_out1 []).1 rfl,
   (claim_C8 demo_channels demo_out2 []).2.1 demo_channel "boom" rfl rfl,
   (claim_C8 demo_channels demo_out1 [demo_out1, demo_out2]).2.2.2⟩

/-- A concrete SDK response carrying one function call, for witnesses. -/
def demo_raw : RawResponse :=
  { choices := [{ message :=
      { content := some ""
        function_call := some { name := "echo", arguments := .pdict [] } } }] }

/-- C10: every `LLMResponse` the GigaChat response parser produces carries at
most one capability-call request (a request is appended only for the single
optional `function_call` of the first choice), and the conversion of an
assistant entry back to the provider format reads only the first recorded tool
call — dropping the rest leaves the conversion unchanged, entry-wise and over a
whole conversation. -/
theorem claim_C10 (jr : String → Except String Params)
    (jl : String → Except String Value) (fresh : String) (raw : RawResponse)
    (content : String) (tc : ToolCallDict) (rest : List ToolCallDict)
    (fsid : Option String) (msgs : List Entry) :
    (∀ r, GigaChatProvider.parse_response jr fresh raw = .ok r →
      r.tool_calls.length ≤ 1) ∧
    convert_message jl (.assistant content (tc :: rest) fsid) =
      convert_message jl (.assistant content [tc] fsid) ∧
    convert_messages_to_gigachat jl
        (.assistant content (tc :: rest) fsid :: msgs) =
      convert_messages_to_gigachat jl (.assistant content [tc] fsid :: msgs) := by
  refine ⟨?_, rfl, rfl⟩
  intro r hr
  unfold GigaChatProvider.parse_response at hr
  cases hchoices : raw.choices with
  | nil =>
    rw [hchoices] at hr
    exact absurd hr (by simp)
  | cons choice restc =>
    rw [hchoices] at hr
    cases hr
    cases hfc : choice.message.function_call with
    | none => simp [hfc]
    | some fc => simp [hfc]

theorem claim_C10_witness :
    ({ content := some ""
       tool_calls := [{ id := "id1", name := "echo", arguments := [] }]
       finish_reason := "stop"
       usage := []
       functions_state_id := none } : LLMResponse).tool_calls.length ≤ 1 :=
  (claim_C10 (fun _ => .error "bad") (fun _ => .error "bad") "id1" demo_raw ""
    ⟨"t1", "echo", PyArgs.pstr "\x7b\x7d"⟩ [] none []).1 _ rfl

theorem run_loop_all_tool_calls (provider : Provider) (tools : ToolRegistry)
    (hp : ∀ msgs, ∃ r, provider msgs = .ok r ∧ r.has_tool_calls = true) :
    ∀ (fuel : Nat) (messages : List Entry),
      ∃ out, run_loop provider tools fuel messages = .ok (none, out, fuel) := by
  intro fuel
  induction fuel with
  | zero => exact fun messages => ⟨messages, rfl⟩
  | succ n ih =>
    intro messages
    obtain ⟨r, hr, htc⟩ := hp messages
    obtain ⟨out, hout⟩ := ih (round_step tools messages r)
    exact ⟨out, by simp [run_loop, hr, htc, hout]⟩

/-- C1: with a provider mock that always answers with a capability-call request
for a registered capability, the reasoning loop of `_run_subagent` performs
exactly its configured maximum number of rounds — one provider call per round,
never more — and then terminates with `final_result` still unset, so the run
announces the synthesized fallback reply instead of looping forever, for every
round limit ≥ 1. -/
theorem claim_C1 (provider : Provider) (tools : ToolRegistry)
    (max_iterations : Nat) (task system_prompt label : String) (origin : Origin)
    (_hmax : 1 ≤ max_iterations)
    (hp : ∀ msgs, ∃ r, provider msgs = .ok r ∧ r.has_tool_calls = true ∧
      ∀ tc ∈ r.tool_calls, tools.has tc.name = true) :
    (∃ out, run_loop provider tools max_iterations
        [Entry.system system_prompt, Entry.user task] =
      .ok (none, out, max_iterations)) ∧
    run_subagent provider tools task system_prompt max_iterations label origin =
      announce_result label task subagent_fallback_reply origin "ok" := by
  have hp2 : ∀ msgs, ∃ r, provider msgs = .ok r ∧ r.has_tool_calls = true :=
    fun msgs => (hp msgs).elim (fun r hr => ⟨r, hr.1, hr.2.1⟩)
  obtain ⟨out, hout⟩ := run_loop_all_tool_calls provider tools hp2 max_iterations
    [Entry.system system_prompt, Entry.user task]
  refine ⟨⟨out, hout⟩, ?_⟩
  simp [run_subagent, hout]

/-- A provider response that always requests the registered `echo` capability. -/
def demo_tool_call_response : LLMResponse :=
  { content := none, tool_calls := [{ id := "t1", name := "echo", arguments := [] }] }

theorem claim_C1_witness :
    1 ≤ subagent_max_iterations ∧
    run_subagent (fun _ => .ok demo_tool_call_response) demo_registry "do it"
        "sys" subagent_max_iterations "lbl" ⟨"cli", "direct"⟩ =
      announce_result "lbl" "do it" subagent_fallback_reply ⟨"cli", "direct"⟩ "ok" :=
  ⟨by decide,
   (claim_C1 (fun _ => .ok demo_tool_call_response) demo_registry
      subagent_max_iterations "do it" "sys" "lbl" ⟨"cli", "direct"⟩ (by decide)
      (fun _ => ⟨demo_tool_call_response, rfl, rfl, by decide⟩)).2⟩

/-- C7: a model-provider call failure is caught, not retried. At the provider
adapter, `GigaChatProvider.chat` converts a raised client error into an
`LLMResponse` whose content is the error text, with no tool calls — so the
reasoning loop, seeing no capability-call request, terminates the invocation
after exactly one round with that error text as its terminal reply; and a
provider that raises through to the loop ends the invocation through the
supervisor's `except`, announced as an error — in neither case is the round
silently retried. -/
theorem claim_C7 (jr : String → Except String Params) (fresh e : String)
    (tools : ToolRegistry) (max_iterations : Nat) (msgs : List Entry)
    (task system_prompt label : String) (origin : Origin)
    (hmax : 1 ≤ max_iterations) :
    GigaChatProvider.chat jr fresh (.error e) =
      { content := some ("Error calling GigaChat: " ++ e), tool_calls := []
        finish_reason := "error", usage := [], functions_state_id := none } ∧
    run_loop (fun _ => .ok (GigaChatProvider.chat jr fresh (.error e))) tools
        max_iterations msgs =
      .ok (some ("Error calling GigaChat: " ++ e), msgs, 1) ∧
    run_subagent (fun _ => .error e) tools task system_prompt max_iterations
        label origin =
      announce_result label task ("Error: " ++ e) origin "error" := by
  obtain ⟨n, rfl⟩ : ∃ n, max_iterations = n + 1 :=
    ⟨max_iterations - 1, by omega⟩
  refine ⟨rfl, ?_, ?_⟩
  · simp [run_loop, GigaChatProvider.chat, LLMResponse.has_tool_calls]
  · simp [run_subagent, run_loop]

theorem claim_C7_witness :
    1 ≤ subagent_max_iterations ∧
    run_subagent (fun _ => .error "401 unauthorized") demo_registry "do it"
        "sys" subagent_max_iterations "lbl" ⟨"cli", "direct"⟩ =
      announce_result "lbl" "do it" ("Error: " ++ "401 unauthorized")
        ⟨"cli", "direct"⟩ "error" :=
  ⟨by decide,
   (claim_C7 (fun _ => .error "bad") "id1" "401 unauthorized" demo_registry
      subagent_max_iterations [] "do it" "sys" "lbl" ⟨"cli", "direct"⟩
      (by decide)).2.2⟩

theorem run_subagent_is_announce (provider : Provider) (tools : ToolRegistry)
    (task system_prompt : String) (max_iterations : Nat) (label : String)
    (origin : Origin) :
    (∃ result, run_subagent provider tools task system_prompt max_iterations
        label origin = announce_result label task result origin "ok") ∨
    (∃ result, run_subagent provider tools task system_prompt max_iterations
        label origin = announce_result label task result origin "error") := by
  cases h : run_loop provider tools max_iterations
      [Entry.system system_prompt, Entry.user task] with
  | error e => exact Or.inr ⟨"Error: " ++ e, by simp [run_subagent, h]⟩
  | ok t =>
    obtain ⟨fr, ms, n⟩ := t
    exact Or.inl ⟨fr.getD subagent_fallback_reply, by simp [run_subagent, h]⟩

/-- C2: a subagent run publishes exactly one synthetic inbound announcement —
the bus gains precisely that one message, the outbound queue is untouched — and
the announcement is the system-channel message addressed (via its chat id) to
the task's recorded origin, built by the same `_announce_result` path with
status `ok` or `error`; an exception inside the run (a provider error reaching
the loop) is caught at the supervisor boundary and reported with status
`error` through that same path instead of propagating; and the supervisor's
bookkeeping entry added by `spawn` is removed again by the done callback once
the background unit finishes, restoring the running-task map. -/
theorem claim_C2 (provider : Provider) (tools : ToolRegistry)
    (task system_prompt label : String) (max_iterations : Nat) (origin : Origin)
    (bus : MessageBus) (running : List String) (task_id : String) :
    (run_subagent_bus provider tools task system_prompt max_iterations label
        origin bus).inbound =
      bus.inbound ++
        [run_subagent provider tools task system_prompt max_iterations label
          origin] ∧
    (run_subagent_bus provider tools task system_prompt max_iterations label
        origin bus).outbound = bus.outbound ∧
    (run_subagent provider tools task system_prompt max_iterations label
        origin).channel = "system" ∧
    (run_subagent provider tools task system_prompt max_iterations label
        origin).sender_id = "subagent" ∧
    (run_subagent provider tools task system_prompt max_iterations label
        origin).chat_id = origin.channel ++ ":" ++ origin.chat_id ∧
    ((∃ result, run_subagent provider tools task system_prompt max_iterations
        label origin = announce_result label task result origin "ok") ∨
     (∃ result, run_subagent provider tools task system_prompt max_iterations
        label origin = announce_result label task result origin "error")) ∧
    (∀ e, run_loop provider tools max_iterations
        [Entry.system system_prompt, Entry.user task] = .error e →
      run_subagent provider tools task system_prompt max_iterations label
          origin = announce_result label task ("Error: " ++ e) origin "error") ∧
    (running.contains task_id = false →
      reap (spawn_running running task_id) task_id = running) := by
  have hann := run_subagent_is_announce provider tools task system_prompt
    max_iterations label origin
  have hfields : (run_subagent provider tools task system_prompt max_iterations
        label origin).channel = "system" ∧
      (run_subagent provider tools task system_prompt max_iterations label
        origin).sender_id = "subagent" ∧
      (run_subagent provider tools task system_prompt max_iterations label
        origin).chat_id = origin.channel ++ ":" ++ origin.chat_id := by
    rcases hann with ⟨result, heq⟩ | ⟨result, heq⟩ <;>
      rw [heq] <;> exact ⟨rfl, rfl, rfl⟩
  refine ⟨rfl, rfl, hfields.1, hfields.2.1, hfields.2.2, hann, ?_, ?_⟩
  · intro e he
    simp [run_subagent, he]
  · intro hc
    unfold reap spawn_running
    rw [List.filter_append]
    have h1 : running.filter (fun t => t ≠ task_id) = running := by
      apply List.filter_eq_self.mpr
      intro a ha
      simp only [decide_eq_true_eq]
      intro heq
      subst heq
      simp at hc
      exact hc ha
    have h2 : [task_id].filter (fun t => t ≠ task_id) = [] := by
      simp
    rw [h1, h2, List.append_nil]

theorem claim_C2_witness :
    (run_subagent_bus (fun _ => .error "boom") demo_registry "do it" "sys" 1
        "lbl" ⟨"cli", "direct"⟩ MessageBus.init).inbound =
      [run_subagent (fun _ => .error "boom") demo_registry "do it" "sys" 1
        "lbl" ⟨"cli", "direct"⟩] ∧
    run_subagent (fun _ => .error "boom") demo_registry "do it" "sys" 1 "lbl"
        ⟨"cli", "direct"⟩ =
      announce_result "lbl" "do it" ("Error: " ++ "boom") ⟨"cli", "direct"⟩
        "error" ∧
    reap (spawn_running ["a1"] "b2") "b2" = ["a1"] := by
  have h := claim_C2 (fun _ => .error "boom") demo_registry "do it" "sys" "lbl"
    1 ⟨"cli", "direct"⟩ MessageBus.init ["a1"] "b2"
  exact ⟨h.1, h.2.2.2.2.2.2.1 "boom" rfl, h.2.2.2.2.2.2.2 (by decide)⟩

theorem no_orphans_from_append (xs ys : List Entry) :
    ∀ seen, no_orphans_from seen (xs ++ ys) =
      (no_orphans_from seen xs &&
        no_orphans_from (seen ++ assistant_ids xs) ys) := by
  induction xs with
  | nil => intro seen; simp [no_orphans_from, assistant_ids]
  | cons e rest ih =>
    intro seen
    cases e with
    | system c => simp [no_orphans_from, assistant_ids, ih]
    | user c => simp [no_orphans_from, assistant_ids, ih]
    | userParts p => simp [no_orphans_from, assistant_ids, ih]
    | assistant c tcs fsid =>
      simp [no_orphans_from, assistant_ids, ih, List.append_assoc]
    | tool cid nm ct =>
      simp [no_orphans_from, assistant_ids, ih, Bool.and_assoc]

theorem no_orphans_results (f : ToolCallRequest → String) :
    ∀ (tcs : List ToolCallRequest) (seen : List String),
      (∀ tc ∈ tcs, seen.contains tc.id = true) →
      no_orphans_from seen
        (tcs.map (fun tc => Entry.tool tc.id tc.name (f tc))) = true := by
  intro tcs
  induction tcs with
  | nil => intro seen _; rfl
  | cons tc rest ih =>
    intro seen h
    have h1 := h tc (List.mem_cons_self tc rest)
    have h2 := ih seen (fun x hx => h x (List.mem_cons_of_mem tc hx))
    have h1m : tc.id ∈ seen := by simpa using h1
    simp [no_orphans_from, h1m, h2]

theorem no_orphans_round_step (tools : ToolRegistry) (messages : List Entry)
    (response : LLMResponse) (seen : List String)
    (h : no_orphans_from seen messages = true) :
    no_orphans_from seen (round_step tools messages response) = true := by
  have hstep : round_step tools messages response =
      messages ++
        ([Entry.assistant ((response.content).getD "")
            (response.tool_calls.map (fun tc =>
              ToolCallDict.mk tc.id tc.name
                (PyArgs.pstr (json_dumps_obj tc.arguments)))) none] ++
          response.tool_calls.map (fun tc =>
            Entry.tool tc.id tc.name (tools.execute tc.name tc.arguments))) := by
    unfold round_step
    rw [List.append_assoc]
  rw [hstep, no_orphans_from_append, h, Bool.true_and]
  rw [List.singleton_append]
  simp only [no_orphans_from]
  apply no_orphans_results
  intro tc htc
  have h1 : ToolCallDict.mk tc.id tc.name
      (PyArgs.pstr (json_dumps_obj tc.arguments)) ∈
      response.tool_calls.map (fun tc => ToolCallDict.mk tc.id tc.name
        (PyArgs.pstr (json_dumps_obj tc.arguments))) :=
    List.mem_map_of_mem _ htc
  have h2 : tc.id ∈ (response.tool_calls.map (fun tc =>
      ToolCallDict.mk tc.id tc.name
        (PyArgs.pstr (json_dumps_obj tc.arguments)))).map (fun t => t.id) :=
    List.mem_map_of_mem (fun t => t.id) h1
  have h3 : tc.id ∈ (seen ++ assistant_ids messages) ++
      (response.tool_calls.map (fun tc => ToolCallDict.mk tc.id tc.name
        (PyArgs.pstr (json_dumps_obj tc.arguments)))).map (fun t => t.id) :=
    List.mem_append_right _ h2
  simpa using h3

theorem run_loop_no_orphans (provider : Provider) (tools : ToolRegistry) :
    ∀ (fuel : Nat) (messages : List Entry) (seen : List String)
      (res : Option String) (msgs : List Entry) (n : Nat),
      no_orphans_from seen messages = true →
      run_loop provider tools fuel messages = .ok (res, msgs, n) →
      no_orphans_from seen msgs = true := by
  intro fuel
  induction fuel with
  | zero =>
    intro messages seen res msgs n h hrun
    simp only [run_loop, Except.ok.injEq, Prod.mk.injEq] at hrun
    rw [← hrun.2.1]
    exact h
  | succ k ih =>
    intro messages seen res msgs n h hrun
    cases hp : provider messages with
    | error e =>
      simp only [run_loop, hp] at hrun
      cases hrun
    | ok r =>
      simp only [run_loop, hp] at hrun
      by_cases htc : r.has_tool_calls = true
      · rw [if_pos htc] at hrun
        cases hrec : run_loop provider tools k (round_step tools messages r) with
        | error e =>
          rw [hrec] at hrun
          cases hrun
        | ok t =>
          obtain ⟨res2, msgs2, n2⟩ := t
          rw [hrec] at hrun
          simp only [Except.ok.injEq, Prod.mk.injEq] at hrun
          rw [← hrun.2.1]
          exact ih (round_step tools messages r) seen res2 msgs2 n2
            (no_orphans_round_step tools messages r seen h) hrec
      · rw [if_neg htc] at hrun
        simp only [Except.ok.injEq, Prod.mk.injEq] at hrun
        rw [← hrun.2.1]
        exact h

/-- C9: within one reasoning-loop invocation, every tool-result entry in the
final conversation is correlated (by request id) to a tool-call request
recorded in an earlier assistant entry of the same conversation — starting
from the loop's system/user seed, no orphan tool result is ever appended —
and the tool-result entries one round appends after its assistant record
list, in order, exactly the ids of the requests the response issued,
executed sequentially. -/
theorem claim_C9 (provider : Provider) (tools : ToolRegistry)
    (task system_prompt : String) (max_iterations : Nat)
    (res : Option String) (msgs : List Entry) (rounds : Nat)
    (hrun : run_loop provider tools max_iterations
      [Entry.system system_prompt, Entry.user task] = .ok (res, msgs, rounds)) :
    no_orphans msgs = true ∧
    ∀ (messages : List Entry) (response : LLMResponse),
      ((round_step tools messages response).drop
          (messages.length + 1)).filterMap tool_entry_id =
        response.tool_calls.map (fun tc => tc.id) := by
  constructor
  · exact run_loop_no_orphans provider tools max_iterations
      [Entry.system system_prompt, Entry.user task] [] res msgs rounds rfl hrun
  · intro messages response
    unfold round_step
    have hlen : messages.length + 1 =
        (messages ++ [Entry.assistant ((response.content).getD "")
          (response.tool_calls.map (fun tc => ToolCallDict.mk tc.id tc.name
            (PyArgs.pstr (json_dumps_obj tc.arguments)))) none]).length := by
      simp
    rw [hlen, List.drop_left, List.filterMap_map]
    induction response.tool_calls with
    | nil => rfl
    | cons tc rest ih => simp [List.filterMap_cons, tool_entry_id, ih]

theorem claim_C9_witness :
    no_orphans (round_step demo_registry
      [Entry.system "sys", Entry.user "hi"] demo_tool_call_response) = true :=
  (claim_C9 (fun _ => .ok demo_tool_call_response) demo_registry "hi" "sys" 1
    none (round_step demo_registry [Entry.system "sys", Entry.user "hi"]
      demo_tool_call_response) 1 rfl).1

end Gigabot
